import Mathlib

/-!
# Verification of the Mirai-2026 specification against its C sources

Shallow embedding of the components referenced by the frozen claims:
telnet state machine, attack engine, scanner credential loading and
target-IP generation, kill switch, AEAD crypto wrapper, authorization
network check, config validation, and the multi-IP loader.

Bytes are modelled as `Nat` values in `[0, 256)` (the unsigned reading of
the C `char` buffers; comparisons against constants above 127 behave this
way on unsigned-`char` targets, which is the only reading under which the
telnet IAC negotiation can match at all).  Machine integers are `Nat`/`Int`
with explicit `% 2 ^ w` where wrap-around matters.  Fallible C functions
returning `result_t` are embedded as an explicit result structure.
I/O side effects whose results the C code ignores (telnet `send` replies,
log lines other than the counted warning in `config_validate`) are not part
of the state and are omitted.
-/

namespace Mirai

/-- Bytes of a string literal, as unsigned byte values. -/
def strBytes (s : String) : List Nat := s.data.map Char.toNat

/-! ## Telnet state machine (src/scanner/telnet_state_machine.c) -/

/-- The 11 telnet connection states of `telnet_state_t`. -/
inductive TelnetState where
  | closed
  | connecting
  | handleIacs
  | waitingUsername
  | waitingPassword
  | waitingPasswdResp
  | waitingEnableResp
  | waitingSystemResp
  | waitingShellResp
  | waitingShResp
  | waitingTokenResp
  deriving DecidableEq, Repr

/-- `telnet_conn_t`, restricted to the fields that drive the state machine:
the current state and the read buffer (`rdbuf` together with `rdbuf_pos`,
modelled as the list of buffered bytes).  `fd`, destination address/port and
the `tries` counter do not influence `telnet_state_machine_process`. -/
structure TelnetConn where
  state : TelnetState
  rdbuf : List Nat
  deriving DecidableEq, Repr

/-- `telnet_consume_iacs`: scan the front of the buffer for IAC (0xFF)
sequences; IAC IAC consumes 2 bytes, IAC DO opt and IAC WILL/WONT/DONT opt
consume 3 (their replies are sent on the socket and ignored here), any other
2-byte IAC sequence consumes 2; stops at the first non-IAC byte or when a
sequence is incomplete (`can_consume` fails). -/
def telnet_consume_iacs : List Nat → Nat
  | 255 :: b :: rest =>
    if b = 255 then
      2 + telnet_consume_iacs rest
    else if b = 253 then
      match rest with
      | [] => 0
      | _ :: rest2 => 3 + telnet_consume_iacs rest2
    else if b = 251 ∨ b = 252 ∨ b = 254 then
      match rest with
      | [] => 0
      | _ :: rest2 => 3 + telnet_consume_iacs rest2
    else
      2 + telnet_consume_iacs rest
  | _ => 0

/-- The backward prompt scan shared by the `telnet_consume_*_prompt`
handlers: the C loop `for (i = rdbuf_pos - 1; i > 0; i--)` returns `i + 1`
for the largest index `i > 0` holding a prompt character (index 0 is never
examined), and 0 when none is found. -/
def backScanPrompt (buf : List Nat) (cs : List Nat) : Nat :=
  match (List.range buf.length).reverse.find?
      (fun i => decide (0 < i) && cs.contains (buf.getD i 0)) with
  | some i => i + 1
  | none => 0

/-- `memcmp(buf + i, pat, pat.length) == 0`, false when fewer than
`pat.length` bytes remain (the C loops bound `i` so that the pattern fits). -/
def matchesAt (buf pat : List Nat) (i : Nat) : Bool :=
  decide ((buf.drop i).take pat.length = pat)

/-- Forward substring scan of the C handlers: the first index `i` at which
`pat` occurs yields `i + pat.length`; 0 when absent. -/
def findSubstrEnd (buf pat : List Nat) : Nat :=
  match (List.range buf.length).find? (fun i => matchesAt buf pat i) with
  | some i => i + pat.length
  | none => 0

/-- `telnet_consume_user_prompt`: backward scan for `:`, `>`, `$`, `#`, `%`;
failing that, forward search for "ogin" then "enter". -/
def telnet_consume_user_prompt (buf : List Nat) : Nat :=
  let p := backScanPrompt buf (strBytes ":>$#%")
  if p ≠ 0 then p
  else
    let a := findSubstrEnd buf (strBytes "ogin")
    if a ≠ 0 then a else findSubstrEnd buf (strBytes "enter")

/-- `telnet_consume_pass_prompt`: backward scan for `:`, `>`, `$`, `#`
(no `%`); failing that, forward search for "assword". -/
def telnet_consume_pass_prompt (buf : List Nat) : Nat :=
  let p := backScanPrompt buf (strBytes ":>$#")
  if p ≠ 0 then p else findSubstrEnd buf (strBytes "assword")

/-- `telnet_consume_any_prompt`: backward scan for `:`, `>`, `$`, `#`, `%`. -/
def telnet_consume_any_prompt (buf : List Nat) : Nat :=
  backScanPrompt buf (strBytes ":>$#%")

/-- `telnet_consume_resp_prompt`: -1 if `incorrect_msg` occurs anywhere,
otherwise `i + token_len` for the first occurrence of `token`, otherwise 0. -/
def telnet_consume_resp_prompt (buf tok inc : List Nat) : Int :=
  if (List.range buf.length).any (fun i => matchesAt buf inc i) then -1
  else
    match (List.range buf.length).find? (fun i => matchesAt buf tok i) with
    | some i => ((i + tok.length : Nat) : Int)
    | none => 0

/-- `telnet_state_machine_process`: repeatedly run the current state's
consumer; a consumer result of 0 means "need more data" and returns 0; a
positive result advances the state, trims exactly the consumed prefix
(clamped to the buffer length as in the C code) and loops within the same
input; `WAITING_TOKEN_RESP` returns -1 on "incorrect" and 1 on the "MIRAI"
token.  The usernames/passwords/commands sent on the socket at each
transition do not feed back into the machine and are omitted.  `fuel` bounds
the loop; every iteration trims at least one byte, so any `fuel` above the
buffer length is exact. -/
def telnet_state_machine_process : Nat → TelnetConn → Int × TelnetConn
  | 0, conn => (0, conn)
  | fuel + 1, conn =>
    let step : Nat → TelnetState → Int × TelnetConn := fun consumed next =>
      if consumed = 0 then (0, conn)
      else
        telnet_state_machine_process fuel
          ⟨next, conn.rdbuf.drop (min consumed conn.rdbuf.length)⟩
    match conn.state with
    | .handleIacs => step (telnet_consume_iacs conn.rdbuf) .waitingUsername
    | .waitingUsername => step (telnet_consume_user_prompt conn.rdbuf) .waitingPassword
    | .waitingPassword => step (telnet_consume_pass_prompt conn.rdbuf) .waitingPasswdResp
    | .waitingPasswdResp => step (telnet_consume_any_prompt conn.rdbuf) .waitingEnableResp
    | .waitingEnableResp => step (telnet_consume_any_prompt conn.rdbuf) .waitingSystemResp
    | .waitingSystemResp => step (telnet_consume_any_prompt conn.rdbuf) .waitingShellResp
    | .waitingShellResp => step (telnet_consume_any_prompt conn.rdbuf) .waitingShResp
    | .waitingShResp => step (telnet_consume_any_prompt conn.rdbuf) .waitingTokenResp
    | .waitingTokenResp =>
      let r := telnet_consume_resp_prompt conn.rdbuf (strBytes "MIRAI") (strBytes "incorrect")
      if r = -1 then (-1, conn)
      else if 0 < r then (1, conn)
      else (0, conn)
    | _ => (0, conn)

/-- `telnet_receive_data`: when the 256-byte buffer is full, drop the oldest
`RDBUF_DRAIN = 64` bytes first; append the received bytes (at most the free
space) with every 0x00 byte rewritten to `'A'` (`recv_strip_null`). -/
def telnet_receive_data (conn : TelnetConn) (data : List Nat) : TelnetConn :=
  let buf := if conn.rdbuf.length = 256 then conn.rdbuf.drop 64 else conn.rdbuf
  let incoming := (data.take (256 - buf.length)).map (fun b => if b = 0 then 65 else b)
  ⟨conn.state, buf ++ incoming⟩

/-- `telnet_connection_init` leaves the connection in `HANDLE_IACS` with an
empty buffer. -/
def telnet_connection_init : TelnetConn := ⟨.handleIacs, []⟩

/-- Drive a freshly initialized connection through a sequence of buffer
fills, exactly as the scanner orchestrator does: receive one chunk, run the
state machine to quiescence, stop at the first nonzero (success/failure)
result. -/
def telnetRun (fills : List (List Nat)) : Int × TelnetConn :=
  fills.foldl
    (fun acc fill =>
      if acc.1 = 0 then
        let conn := telnet_receive_data acc.2 fill
        telnet_state_machine_process (conn.rdbuf.length + 1) conn
      else acc)
    (0, telnet_connection_init)

/-- C1 (counterexample): the claimed input sequence — "login: ", a username
echo with "Password: ", a password echo with "$ ", then a buffer containing
"MIRAI", with no telnet IAC negotiation — never drives the machine out of
`HANDLE_IACS`: `telnet_consume_iacs` consumes 0 bytes of a buffer that does
not begin with 0xFF, the driver treats 0 as "need more data", and the run
ends with result 0 (not success 1) still in `HANDLE_IACS`. -/
theorem telnet_claimed_success_path_fails :
    (telnetRun [strBytes "login: ", strBytes "admin\r\nPassword: ",
      strBytes "password\r\n$ ", strBytes "MIRAI"]).1 = 0 ∧
    (telnetRun [strBytes "login: ", strBytes "admin\r\nPassword: ",
      strBytes "password\r\n$ ", strBytes "MIRAI"]).2.state = TelnetState.handleIacs := by
  constructor <;> rfl

/-- C1 (amended): from `HANDLE_IACS`, a fill opening with an IAC negotiation
(IAC DO 1) followed by "login: ", then "Password: ", then one shell-prompt
fill "$ " for each of the five command states (password, enable, system,
shell, sh responses), then a buffer containing "MIRAI", drives the machine
to success (1); at every step exactly the bytes up to and including the
matched anchor are consumed (the 3-byte IAC sequence plus "login:", then
"Password:", then each "$"), as the leftover single-space buffers after each
fill show. -/
theorem telnet_success_path_with_negotiation :
    (telnetRun [255 :: 253 :: 1 :: strBytes "login: "]
      = (0, ⟨TelnetState.waitingPassword, strBytes " "⟩)) ∧
    (telnetRun [255 :: 253 :: 1 :: strBytes "login: ", strBytes "Password: "]
      = (0, ⟨TelnetState.waitingPasswdResp, strBytes " "⟩)) ∧
    (telnetRun [255 :: 253 :: 1 :: strBytes "login: ", strBytes "Password: ",
        strBytes "$ "]
      = (0, ⟨TelnetState.waitingEnableResp, strBytes " "⟩)) ∧
    (telnetRun [255 :: 253 :: 1 :: strBytes "login: ", strBytes "Password: ",
        strBytes "$ ", strBytes "$ "]
      = (0, ⟨TelnetState.waitingSystemResp, strBytes " "⟩)) ∧
    (telnetRun [255 :: 253 :: 1 :: strBytes "login: ", strBytes "Password: ",
        strBytes "$ ", strBytes "$ ", strBytes "$ "]
      = (0, ⟨TelnetState.waitingShellResp, strBytes " "⟩)) ∧
    (telnetRun [255 :: 253 :: 1 :: strBytes "login: ", strBytes "Password: ",
        strBytes "$ ", strBytes "$ ", strBytes "$ ", strBytes "$ "]
      = (0, ⟨TelnetState.waitingShResp, strBytes " "⟩)) ∧
    (telnetRun [255 :: 253 :: 1 :: strBytes "login: ", strBytes "Password: ",
        strBytes "$ ", strBytes "$ ", strBytes "$ ", strBytes "$ ", strBytes "$ "]
      = (0, ⟨TelnetState.waitingTokenResp, strBytes " "⟩)) ∧
    (telnetRun [255 :: 253 :: 1 :: strBytes "login: ", strBytes "Password: ",
        strBytes "$ ", strBytes "$ ", strBytes "$ ", strBytes "$ ", strBytes "$ ",
        strBytes "MIRAI"]).1 = 1 := by
  refine ⟨?_, ?_, ?_, ?_, ?_, ?_, ?_, ?_⟩ <;> rfl

/-! ## Kill switch (src/common/kill_switch.c) -/

/-- `kill_switch_t`: remote kill switch state.  `url` does not influence the
decision logic and is omitted. -/
structure KillSwitch where
  enabled : Bool
  check_interval_seconds : Int
  last_check : Int
  consecutive_failures : Nat
  deriving DecidableEq, Repr

/-- Outcome of one remote HTTP check attempt: `curl_easy_init` failure,
a transport-level failure (`res != CURLE_OK`), or an HTTP response code. -/
inductive RemoteOutcome where
  | curlInitFail
  | transportFail
  | httpResponse (code : Int)
  deriving DecidableEq, Repr

/-- `kill_switch_check` at wall-clock time `now` with the given transport
outcome: no-op unless enabled and the interval has elapsed; a transport
failure increments `consecutive_failures` and terminates once it reaches 3;
a transport success resets the counter to 0 and terminates exactly when the
HTTP status is not 200. -/
def kill_switch_check (ks : KillSwitch) (now : Int) (outcome : RemoteOutcome) :
    Bool × KillSwitch :=
  if ¬ks.enabled then (false, ks)
  else if now - ks.last_check < ks.check_interval_seconds then (false, ks)
  else
    let ks1 := { ks with last_check := now }
    match outcome with
    | .curlInitFail =>
      let ks2 := { ks1 with consecutive_failures := ks1.consecutive_failures + 1 }
      (decide (3 ≤ ks2.consecutive_failures), ks2)
    | .transportFail =>
      let ks2 := { ks1 with consecutive_failures := ks1.consecutive_failures + 1 }
      (decide (3 ≤ ks2.consecutive_failures), ks2)
    | .httpResponse code =>
      let ks2 := { ks1 with consecutive_failures := 0 }
      (decide (code ≠ 200), ks2)

/-- `time_limit_t`. -/
structure TimeLimit where
  enabled : Bool
  start_time : Int
  max_runtime_seconds : Int
  deriving DecidableEq, Repr

/-- `time_limit_exceeded` (the 90%-budget branch only logs and returns
false). -/
def time_limit_exceeded (tl : TimeLimit) (now : Int) : Bool :=
  tl.enabled && decide (tl.max_runtime_seconds < now - tl.start_time)

/-- `kill_switch_status_t`. -/
structure KillSwitchStatus where
  remote : Option KillSwitch
  time_limit : Option TimeLimit
  manual_triggered : Bool
  reason : Option String
  deriving DecidableEq, Repr

/-- `kill_switch_should_terminate`: manual trigger first, then the remote
check (which updates the remote state), then the time limit; the first true
result short-circuits and records a reason. -/
def kill_switch_should_terminate (st : KillSwitchStatus) (now : Int)
    (outcome : RemoteOutcome) : Bool × KillSwitchStatus :=
  if st.manual_triggered then
    (true, { st with reason := some "Manual kill switch activated" })
  else
    let afterRemote :=
      match st.remote with
      | some ks =>
        let rc := kill_switch_check ks now outcome
        (rc.1, { st with remote := some rc.2 })
      | none => (false, st)
    if afterRemote.1 then
      (true, { afterRemote.2 with reason := some "Remote kill switch activated" })
    else
      match afterRemote.2.time_limit with
      | some tl =>
        if time_limit_exceeded tl now then
          (true, { afterRemote.2 with reason := some "Time limit exceeded" })
        else (false, afterRemote.2)
      | none => (false, afterRemote.2)

/-- C4: for an enabled remote kill switch (no time limit, no manual
trigger), with each check due: three consecutive transport failures return
false, false, then true; after two failures, a transport-level success with
HTTP 200 resets the consecutive-failure counter to zero and returns false;
and any non-200 HTTP response is an immediate terminate. -/
theorem kill_switch_failure_and_reset_behavior
    (iv lc t1 t2 t3 : Int) (code : Int) (f : Nat)
    (h1 : iv ≤ t1 - lc) (h2 : iv ≤ t2 - t1) (h3 : iv ≤ t3 - t2)
    (hcode : code ≠ 200) :
    kill_switch_should_terminate ⟨some ⟨true, iv, lc, 0⟩, none, false, none⟩ t1
        RemoteOutcome.transportFail
      = (false, ⟨some ⟨true, iv, t1, 1⟩, none, false, none⟩) ∧
    kill_switch_should_terminate ⟨some ⟨true, iv, t1, 1⟩, none, false, none⟩ t2
        RemoteOutcome.transportFail
      = (false, ⟨some ⟨true, iv, t2, 2⟩, none, false, none⟩) ∧
    (kill_switch_should_terminate ⟨some ⟨true, iv, t2, 2⟩, none, false, none⟩ t3
        RemoteOutcome.transportFail).1 = true ∧
    kill_switch_should_terminate ⟨some ⟨true, iv, t2, 2⟩, none, false, none⟩ t3
        (RemoteOutcome.httpResponse 200)
      = (false, ⟨some ⟨true, iv, t3, 0⟩, none, false, none⟩) ∧
    (kill_switch_should_terminate ⟨some ⟨true, iv, lc, f⟩, none, false, none⟩ t1
        (RemoteOutcome.httpResponse code)).1 = true := by
  have d1 : ¬(t1 - lc < iv) := by omega
  have d2 : ¬(t2 - t1 < iv) := by omega
  have d3 : ¬(t3 - t2 < iv) := by omega
  refine ⟨?_, ?_, ?_, ?_, ?_⟩ <;>
    simp [kill_switch_should_terminate, kill_switch_check, d1, d2, d3, hcode]

/-- Witness for `kill_switch_failure_and_reset_behavior` at interval 60 with
checks at times 60, 120, 180 and failing HTTP code 404. -/
theorem kill_switch_failure_and_reset_behavior_witness :
    (60 : Int) ≤ 60 - 0 ∧ (60 : Int) ≤ 120 - 60 ∧ (60 : Int) ≤ 180 - 120 ∧
      (404 : Int) ≠ 200 ∧
      (kill_switch_should_terminate ⟨some ⟨true, 60, 120, 2⟩, none, false, none⟩ 180
        RemoteOutcome.transportFail).1 = true :=
  ⟨by decide, by decide, by decide, by decide,
    (kill_switch_failure_and_reset_behavior 60 0 60 120 180 404 5 (by decide)
      (by decide) (by decide) (by decide)).2.2.1⟩

/-! ## Attack engine (src/attack/attack_modern.c) -/

/-- `attack_vector_t`. -/
inductive AttackVector where
  | udpFlood
  | tcpSyn
  | tcpAck
  | httpFlood
  | dnsAmplification
  | greIp
  | greEth
  | slowloris
  deriving DecidableEq, Repr

/-- `attack_target_t` (socket address, hostname, netmask). -/
structure AttackTarget where
  addr : Nat
  port : Nat
  hostname : String
  netmask : Nat
  deriving DecidableEq, Repr

/-- `attack_option_t`. -/
structure AttackOption where
  key : Nat
  value : String
  deriving DecidableEq, Repr

/-- `attack_stats_t` (times as seconds). -/
structure AttackStats where
  packets_sent : Nat
  bytes_sent : Nat
  errors : Nat
  start_time : Nat
  end_time : Nat
  active : Bool
  deriving DecidableEq, Repr

/-- `struct attack_handle`.  The worker `pthread_t` is modelled by
`threadJoined`, which `attack_modern_stop`'s `pthread_join` sets. -/
structure AttackHandle where
  vector : AttackVector
  targets : List AttackTarget
  options : List AttackOption
  duration : Nat
  running : Bool
  threadJoined : Bool
  stats : AttackStats
  deriving DecidableEq, Repr

/-- Result of `attack_modern_start`: the returned handle (or NULL), the
number of `calloc` calls attempted on the executed path, and the number of
allocations still live on return (copies freed again on the failure paths
are not live). -/
structure AttackStartResult where
  handle : Option AttackHandle
  allocCalls : Nat
  liveAllocs : Nat
  deriving DecidableEq, Repr

/-- `attack_modern_start`: rejects `target_count == 0` or NULL `targets`
before any allocation; deep-copies targets (and options when
`option_count > 0 && options != NULL`); initializes the stats block with
`start_time = now` and `active = true`; dispatches on the vector (only UDP
flood, TCP SYN and HTTP flood have thread bodies — any other vector frees
every copy and returns NULL, as does `pthread_create` failure).  `calloc`
and `pthread_create` outcomes are inputs (`allocHandleOk` …). -/
def attack_modern_start (vector : AttackVector) (targets : Option (List AttackTarget))
    (target_count : Nat) (options : Option (List AttackOption)) (option_count : Nat)
    (duration : Nat) (now : Nat)
    (allocHandleOk allocTargetsOk allocOptionsOk threadCreateOk : Bool) :
    AttackStartResult :=
  if target_count = 0 ∨ targets = none then ⟨none, 0, 0⟩
  else if ¬allocHandleOk then ⟨none, 1, 0⟩
  else if ¬allocTargetsOk then ⟨none, 2, 0⟩
  else
    let optAlloc : Bool := decide (option_count ≠ 0) && decide (options ≠ none)
    if optAlloc ∧ ¬allocOptionsOk then ⟨none, 3, 0⟩
    else
      let calls := if optAlloc then 3 else 2
      let supported : Bool :=
        decide (vector = .udpFlood) || decide (vector = .tcpSyn) ||
          decide (vector = .httpFlood)
      if ¬supported ∨ ¬threadCreateOk then ⟨none, calls, 0⟩
      else
        ⟨some
          { vector := vector
            targets := targets.getD []
            options := if optAlloc then options.getD [] else []
            duration := duration
            running := true
            threadJoined := false
            stats :=
              { packets_sent := 0, bytes_sent := 0, errors := 0,
                start_time := now, end_time := 0, active := true } },
          calls, calls⟩

/-- `attack_modern_stop`: clears the running flag, joins the worker thread,
records the end timestamp and clears the active flag.  The returned value is
the handle's observable state at that point; the C code then frees the
handle and its copies, after which the caller must not use it. -/
def attack_modern_stop (h : AttackHandle) (now : Nat) : AttackHandle :=
  { h with
      running := false
      threadJoined := true
      stats := { h.stats with end_time := now, active := false } }

/-- `attack_modern_get_stats`: copies the stats block untouched. -/
def attack_modern_get_stats (h : AttackHandle) : AttackStats := h.stats

/-- C2: `attack_modern_start` with `target_count == 0` or NULL targets
returns no handle having attempted no allocation; and for any handle a
start returns, an immediate `attack_modern_stop` joins the worker thread
and leaves the stats (as `attack_modern_get_stats` copies them) with
`active = false` and `end_time` populated with the stop time. -/
theorem attack_start_stop_contract (vector : AttackVector)
    (targets : Option (List AttackTarget)) (target_count : Nat)
    (options : Option (List AttackOption)) (option_count duration now t : Nat)
    (a1 a2 a3 a4 : Bool) :
    ((target_count = 0 ∨ targets = none) →
      attack_modern_start vector targets target_count options option_count
        duration now a1 a2 a3 a4 = ⟨none, 0, 0⟩) ∧
    (∀ h, (attack_modern_start vector targets target_count options option_count
        duration now a1 a2 a3 a4).handle = some h →
      (attack_modern_stop h t).threadJoined = true ∧
      (attack_modern_get_stats (attack_modern_stop h t)).active = false ∧
      (attack_modern_get_stats (attack_modern_stop h t)).end_time = t ∧
      (attack_modern_get_stats (attack_modern_stop h t)).start_time = now) := by
  constructor
  · intro hinv
    simp [attack_modern_start, hinv]
  · intro h hsome
    refine ⟨rfl, rfl, rfl, ?_⟩
    unfold attack_modern_start at hsome
    split at hsome
    · simp at hsome
    · split at hsome
      · simp at hsome
      · split at hsome
        · simp at hsome
        · simp only at hsome
          split at hsome
          · simp at hsome
          · split at hsome
            · simp at hsome
            · simp only [Option.some.injEq] at hsome
              subst hsome
              rfl

/-- Witness for `attack_start_stop_contract`: zero targets are rejected with
no allocation, and a started UDP-flood handle stopped at time 50 shows
`active = false`, `end_time = 50`. -/
theorem attack_start_stop_contract_witness :
    (attack_modern_start AttackVector.udpFlood none 0 none 0 10 100
        true true true true = ⟨none, 0, 0⟩) ∧
    ((attack_modern_stop
        ⟨AttackVector.udpFlood, [⟨167772161, 80, "", 0⟩], [], 10, true, false,
          ⟨0, 0, 0, 100, 0, true⟩⟩ 50).threadJoined = true ∧
      (attack_modern_get_stats (attack_modern_stop
        ⟨AttackVector.udpFlood, [⟨167772161, 80, "", 0⟩], [], 10, true, false,
          ⟨0, 0, 0, 100, 0, true⟩⟩ 50)).active = false ∧
      (attack_modern_get_stats (attack_modern_stop
        ⟨AttackVector.udpFlood, [⟨167772161, 80, "", 0⟩], [], 10, true, false,
          ⟨0, 0, 0, 100, 0, true⟩⟩ 50)).end_time = 50 ∧
      (attack_modern_get_stats (attack_modern_stop
        ⟨AttackVector.udpFlood, [⟨167772161, 80, "", 0⟩], [], 10, true, false,
          ⟨0, 0, 0, 100, 0, true⟩⟩ 50)).start_time = 100) :=
  ⟨(attack_start_stop_contract AttackVector.udpFlood none 0 none 0 10 100 50
      true true true true).1 (Or.inl rfl),
    (attack_start_stop_contract AttackVector.udpFlood
      (some [⟨167772161, 80, "", 0⟩]) 1 none 0 10 100 50 true true true true).2
      _ rfl⟩

/-! ## Scanner credential loading (src/scanner/scanner_modern.c) -/

/-- `ai_credential_t` as returned by the AI bridge.  `confidence_score` is a
C `float` in `[0, 1]`; it is embedded as a rational (exact at every value
the claims exercise, in particular 1.0, which every IEEE float represents
exactly). -/
structure AiCredential where
  username : String
  password : String
  source : String
  confidence_score : ℚ
  deriving DecidableEq, Repr

/-- `scanner_credential_t` (weight is a `uint16_t`; the computed values stay
far below 2 ^ 16). -/
structure ScannerCredential where
  username : String
  password : String
  weight : Nat
  active : Bool
  deriving DecidableEq, Repr

/-- `SCANNER_CREDENTIAL_MAX`. -/
def SCANNER_CREDENTIAL_MAX : Nat := 256

/-- The weight map of `scanner_load_credentials_from_ai`:
`(uint16_t)(confidence_score * 10.0f) + 1` — the float-to-integer cast
truncates toward zero, i.e. takes the floor of the non-negative product. -/
def scannerAiWeight (confidence : ℚ) : Nat := (⌊confidence * 10⌋).toNat + 1

/-- `scanner_load_credentials_from_ai`: fails (falls back to the built-in
defaults) when the AI bridge is unavailable or returns no credentials;
otherwise rebuilds the credential table from the returned entries (at most
`SCANNER_CREDENTIAL_MAX`), each with the mapped weight and `active = true`,
and accumulates `total_credential_weight`. -/
def scanner_load_credentials_from_ai (available : Bool)
    (ai_creds : List AiCredential) : Option (List ScannerCredential) × Nat :=
  if ¬available then (none, 0)
  else if ai_creds.length = 0 then (none, 0)
  else
    let loaded := (ai_creds.take SCANNER_CREDENTIAL_MAX).map fun c =>
      { username := c.username, password := c.password,
        weight := scannerAiWeight c.confidence_score, active := true }
    (some loaded, (loaded.map (·.weight)).sum)

/-- C3 (counterexample): an AI credential with confidence score exactly 1.0
is stored with weight `(uint16_t)(1.0 * 10.0) + 1 = 11`, outside the claimed
range 1–10. -/
theorem scanner_ai_weight_eleven_at_full_confidence :
    scanner_load_credentials_from_ai true [⟨"root", "admin", "ai", 1⟩]
      = (some [⟨"root", "admin", 11, true⟩], 11) ∧ ¬(11 ≤ 10) := by
  have hw : scannerAiWeight 1 = 11 := by
    unfold scannerAiWeight
    rw [show ((1 : ℚ) * 10) = ((10 : ℤ) : ℚ) by norm_num, Int.floor_intCast]
    rfl
  refine ⟨?_, by decide⟩
  simp [scanner_load_credentials_from_ai, SCANNER_CREDENTIAL_MAX, hw]

/-- C3 (amended): for every AI-sourced credential whose confidence score
lies in [0, 1], the stored weight `⌊confidence·10⌋ + 1` satisfies
`1 ≤ weight ≤ 11`; it satisfies `weight ≤ 10` whenever the confidence score
is strictly below 1 (the claimed 1–10 range fails only at confidence
exactly 1.0). -/
theorem scanner_ai_weight_range (available : Bool) (l : List AiCredential)
    (res : List ScannerCredential)
    (hres : (scanner_load_credentials_from_ai available l).1 = some res)
    (hconf : ∀ c ∈ l, 0 ≤ c.confidence_score ∧ c.confidence_score ≤ 1) :
    (∀ cr ∈ res, 1 ≤ cr.weight ∧ cr.weight ≤ 11) ∧
    ((∀ c ∈ l, c.confidence_score < 1) → ∀ cr ∈ res, cr.weight ≤ 10) := by
  unfold scanner_load_credentials_from_ai at hres
  split at hres
  · simp at hres
  · split at hres
    · simp at hres
    · simp only [Option.some.injEq] at hres
      subst hres
      constructor
      · intro cr hcr
        simp only [List.mem_map] at hcr
        obtain ⟨c, hc, rfl⟩ := hcr
        have hc' := hconf c (List.mem_of_mem_take hc)
        have h0 : (0 : ℤ) ≤ ⌊c.confidence_score * 10⌋ := by
          apply Int.floor_nonneg.mpr
          nlinarith [hc'.1]
        have h10 : ⌊c.confidence_score * 10⌋ ≤ 10 := by
          have : c.confidence_score * 10 ≤ (10 : ℚ) := by nlinarith [hc'.2]
          calc ⌊c.confidence_score * 10⌋ ≤ ⌊(10 : ℚ)⌋ := Int.floor_le_floor this
            _ = 10 := by norm_num
        dsimp only [scannerAiWeight]
        omega
      · intro hlt cr hcr
        simp only [List.mem_map] at hcr
        obtain ⟨c, hc, rfl⟩ := hcr
        have hc1 := hlt c (List.mem_of_mem_take hc)
        have h9 : ⌊c.confidence_score * 10⌋ < 10 := by
          apply Int.floor_lt.mpr
          push_cast
          nlinarith
        have h0 : (0 : ℤ) ≤ ⌊c.confidence_score * 10⌋ := by
          apply Int.floor_nonneg.mpr
          nlinarith [(hconf c (List.mem_of_mem_take hc)).1]
        dsimp only [scannerAiWeight]
        omega

/-- Witness for `scanner_ai_weight_range`: one credential at confidence
1/2 loads with weight 6, inside both ranges. -/
theorem scanner_ai_weight_range_witness :
    ((scanner_load_credentials_from_ai true [⟨"root", "admin", "ai", 1/2⟩]).1
      = some [⟨"root", "admin", 6, true⟩]) ∧
    (∀ cr ∈ [(⟨"root", "admin", 6, true⟩ : ScannerCredential)],
      1 ≤ cr.weight ∧ cr.weight ≤ 11) := by
  have hw : scannerAiWeight (1 / 2) = 6 := by
    unfold scannerAiWeight
    rw [show ((1 / 2 : ℚ) * 10) = ((5 : ℤ) : ℚ) by norm_num, Int.floor_intCast]
    rfl
  have hw2 : scannerAiWeight 2⁻¹ = 6 := by
    rw [show (2⁻¹ : ℚ) = 1 / 2 by norm_num]
    exact hw
  have hload : (scanner_load_credentials_from_ai true
      [⟨"root", "admin", "ai", 1 / 2⟩]).1 = some [⟨"root", "admin", 6, true⟩] := by
    simp [scanner_load_credentials_from_ai, SCANNER_CREDENTIAL_MAX, hw, hw2]
  exact ⟨hload,
    (scanner_ai_weight_range true [⟨"root", "admin", "ai", 1 / 2⟩]
      [⟨"root", "admin", 6, true⟩] hload
      (by intro c hc; simp at hc; subst hc; constructor <;> norm_num)).1⟩

/-! ## Random target-IP generation (src/scanner/syn_scanner.c,
src/scanner/scanner_modern.c) -/

/-- `scanner_is_valid_target_ip` (scanner_modern.c); the inline skip
conditions of `get_random_target_ip` (syn_scanner.c) are identical. -/
def scanner_is_valid_target_ip (ip : Nat) : Bool :=
  let a := (ip >>> 24) &&& 255
  let b := (ip >>> 16) &&& 255
  if a = 0 ∨ a = 127 ∨ 224 ≤ a then false
  else if a = 10 then false
  else if a = 172 ∧ 16 ≤ b ∧ b ≤ 31 then false
  else if a = 192 ∧ b = 168 then false
  else true

/-- `get_random_target_ip` (syn_scanner.c): draw `get_random_uint32`
values — modelled as a stream of naturals reduced mod 2^32, consumed from
index `k` on — and loop until one escapes every reserved range.  The C loop
is unbounded; `fuel` bounds the recursion, with `none` for a run that finds
no valid address within `fuel` draws. -/
def get_random_target_ip (stream : Nat → Nat) : Nat → Nat → Option Nat
  | _, 0 => none
  | k, fuel + 1 =>
    let ip := stream k % 2 ^ 32
    let a := (ip >>> 24) &&& 255
    let b := (ip >>> 16) &&& 255
    if a = 0 ∨ a = 127 ∨ 224 ≤ a then get_random_target_ip stream (k + 1) fuel
    else if a = 10 then get_random_target_ip stream (k + 1) fuel
    else if a = 172 ∧ 16 ≤ b ∧ b ≤ 31 then get_random_target_ip stream (k + 1) fuel
    else if a = 192 ∧ b = 168 then get_random_target_ip stream (k + 1) fuel
    else some ip

/-- High byte and second byte of a 32-bit value, as divisions. -/
theorem ip_bytes_as_div (ip : Nat) :
    (ip >>> 24) &&& 255 = ip / 2 ^ 24 % 2 ^ 8 ∧
    (ip >>> 16) &&& 255 = ip / 2 ^ 16 % 2 ^ 8 := by
  constructor <;>
    · rw [Nat.shiftRight_eq_div_pow]
      exact Nat.and_pow_two_sub_one_eq_mod _ 8

/-- `scanner_is_valid_target_ip` in arithmetic terms: a 32-bit value passes
exactly when it lies outside 0.0.0.0/8, 10.0.0.0/8, 127.0.0.0/8,
172.16.0.0/12, 192.168.0.0/16 and below 224.0.0.0. -/
theorem scanner_is_valid_target_ip_spec (ip : Nat) (h : ip < 2 ^ 32) :
    scanner_is_valid_target_ip ip = true ↔
      (2 ^ 24 ≤ ip ∧
        ¬(10 * 2 ^ 24 ≤ ip ∧ ip < 11 * 2 ^ 24) ∧
        ¬(127 * 2 ^ 24 ≤ ip ∧ ip < 128 * 2 ^ 24) ∧
        ¬(172 * 2 ^ 24 + 16 * 2 ^ 16 ≤ ip ∧ ip < 172 * 2 ^ 24 + 32 * 2 ^ 16) ∧
        ¬(192 * 2 ^ 24 + 168 * 2 ^ 16 ≤ ip ∧ ip < 192 * 2 ^ 24 + 169 * 2 ^ 16) ∧
        ip < 224 * 2 ^ 24) := by
  have hb := ip_bytes_as_div ip
  simp only [scanner_is_valid_target_ip, hb.1, hb.2]
  split_ifs with h1 h2 h3 h4 <;> simp only [Bool.false_eq_true, false_iff, true_iff] <;> omega

/-- Soundness of the generation loop: a produced address is a 32-bit draw
that passes `scanner_is_valid_target_ip`, and every earlier draw failed it
(the loop runs until a non-excluded address appears). -/
theorem get_random_target_ip_sound (stream : Nat → Nat) :
    ∀ fuel k ip, get_random_target_ip stream k fuel = some ip →
      scanner_is_valid_target_ip ip = true ∧
      ∃ j, k ≤ j ∧ ip = stream j % 2 ^ 32 ∧
        ∀ i, k ≤ i → i < j → scanner_is_valid_target_ip (stream i % 2 ^ 32) = false := by
  intro fuel
  induction fuel with
  | zero => intro k ip h; simp [get_random_target_ip] at h
  | succ n ih =>
    intro k ip h
    rw [get_random_target_ip] at h
    have hy : stream k % 2 ^ 32 < 2 ^ 32 := Nat.mod_lt _ (by norm_num)
    have hb := ip_bytes_as_div (stream k % 2 ^ 32)
    split_ifs at h with h1 h2 h3 h4
    · obtain ⟨hv, j, hkj, hj, hloop⟩ := ih (k + 1) ip h
      refine ⟨hv, j, by omega, hj, ?_⟩
      intro i hki hij
      rcases Nat.eq_or_lt_of_le hki with rfl | hlt
      · rw [hb.1] at h1
        rw [← Bool.not_eq_true, scanner_is_valid_target_ip_spec _ hy]
        omega
      · exact hloop i hlt hij
    · obtain ⟨hv, j, hkj, hj, hloop⟩ := ih (k + 1) ip h
      refine ⟨hv, j, by omega, hj, ?_⟩
      intro i hki hij
      rcases Nat.eq_or_lt_of_le hki with rfl | hlt
      · rw [hb.1] at h2
        rw [← Bool.not_eq_true, scanner_is_valid_target_ip_spec _ hy]
        omega
      · exact hloop i hlt hij
    · obtain ⟨hv, j, hkj, hj, hloop⟩ := ih (k + 1) ip h
      refine ⟨hv, j, by omega, hj, ?_⟩
      intro i hki hij
      rcases Nat.eq_or_lt_of_le hki with rfl | hlt
      · rw [hb.1, hb.2] at h3
        rw [← Bool.not_eq_true, scanner_is_valid_target_ip_spec _ hy]
        omega
      · exact hloop i hlt hij
    · obtain ⟨hv, j, hkj, hj, hloop⟩ := ih (k + 1) ip h
      refine ⟨hv, j, by omega, hj, ?_⟩
      intro i hki hij
      rcases Nat.eq_or_lt_of_le hki with rfl | hlt
      · rw [hb.1, hb.2] at h4
        rw [← Bool.not_eq_true, scanner_is_valid_target_ip_spec _ hy]
        omega
      · exact hloop i hlt hij
    · simp only [Option.some.injEq] at h
      subst h
      rw [hb.1] at h1 h2
      rw [hb.1, hb.2] at h3 h4
      refine ⟨?_, k, le_refl k, rfl, ?_⟩
      · rw [scanner_is_valid_target_ip_spec _ hy]
        omega
      · intro i hki hik
        omega

/-- C6: every address `get_random_target_ip` produces lies outside
0.0.0.0/8, 10.0.0.0/8, 127.0.0.0/8, 172.16.0.0/12, 192.168.0.0/16 and the
range at or above 224.0.0.0/4; passes `scanner_is_valid_target_ip`; and is
the first draw of the random stream to do so (generation loops until a
non-excluded address is produced). -/
theorem get_random_target_ip_excludes_reserved (stream : Nat → Nat)
    (fuel k ip : Nat) (h : get_random_target_ip stream k fuel = some ip) :
    (2 ^ 24 ≤ ip ∧
      ¬(10 * 2 ^ 24 ≤ ip ∧ ip < 11 * 2 ^ 24) ∧
      ¬(127 * 2 ^ 24 ≤ ip ∧ ip < 128 * 2 ^ 24) ∧
      ¬(172 * 2 ^ 24 + 16 * 2 ^ 16 ≤ ip ∧ ip < 172 * 2 ^ 24 + 32 * 2 ^ 16) ∧
      ¬(192 * 2 ^ 24 + 168 * 2 ^ 16 ≤ ip ∧ ip < 192 * 2 ^ 24 + 169 * 2 ^ 16) ∧
      ip < 224 * 2 ^ 24) ∧
    scanner_is_valid_target_ip ip = true ∧
    (∃ j, k ≤ j ∧ ip = stream j % 2 ^ 32 ∧
      ∀ i, k ≤ i → i < j → scanner_is_valid_target_ip (stream i % 2 ^ 32) = false) := by
  obtain ⟨hv, j, hkj, hj, hloop⟩ := get_random_target_ip_sound stream fuel k ip h
  have h32 : ip < 2 ^ 32 := by
    rw [hj]; exact Nat.mod_lt _ (by norm_num)
  exact ⟨(scanner_is_valid_target_ip_spec ip h32).mp hv, hv, j, hkj, hj, hloop⟩

/-- Witness for `get_random_target_ip_excludes_reserved`: a stream whose
first draw is 10.0.0.0 (excluded) and whose second is 8.0.0.0 produces
8.0.0.0, which is valid. -/
theorem get_random_target_ip_excludes_reserved_witness :
    (get_random_target_ip
        (fun i => if i = 0 then 10 * 2 ^ 24 else 8 * 2 ^ 24) 0 2
      = some (8 * 2 ^ 24)) ∧
    scanner_is_valid_target_ip (8 * 2 ^ 24) = true :=
  ⟨by decide,
    (get_random_target_ip_excludes_reserved
      (fun i => if i = 0 then 10 * 2 ^ 24 else 8 * 2 ^ 24) 2 0 (8 * 2 ^ 24)
      (by decide)).2.1⟩

/-! ## Authorization network scope (src/common/authorization.c) -/

/-- Leading-digit accumulation of `atoi`. -/
def atoiLoop : List Char → Int → Int
  | [], acc => acc
  | c :: cs, acc =>
    if c.isDigit then atoiLoop cs (acc * 10 + ((c.toNat : Int) - 48)) else acc

/-- `atoi`: parse an optional minus sign and leading decimal digits; 0 when
the string starts with anything else.  (Leading whitespace and an explicit
plus sign never occur in the inputs the repository passes.) -/
def atoi (s : List Char) : Int :=
  match s with
  | '-' :: cs => -(atoiLoop cs 0)
  | _ => atoiLoop s 0

/-- One dotted-quad component for `inet_pton(AF_INET, …)`: 1–3 decimal
digits, no leading zero (except "0" itself), value at most 255. -/
def parseOctet (p : List Char) : Option Nat :=
  if p = [] then none
  else if ¬p.all Char.isDigit then none
  else if 3 < p.length then none
  else if 1 < p.length ∧ p.headD ' ' = '0' then none
  else
    let v := (atoiLoop p 0).toNat
    if v ≤ 255 then some v else none

/-- `inet_pton(AF_INET, s)`: strict dotted-quad parse, returning the 32-bit
address as a host-order natural (the C code compares addresses and masks in
network byte order throughout, which is order-isomorphic to this). -/
def inet_pton4 (s : String) : Option Nat :=
  match s.data.splitOn '.' with
  | [a, b, c, d] =>
    match parseOctet a, parseOctet b, parseOctet c, parseOctet d with
    | some x, some y, some z, some w =>
      some (x * 2 ^ 24 + y * 2 ^ 16 + z * 2 ^ 8 + w)
    | _, _, _, _ => none
  | _ => none

/-- `strchr(s, c)`: split at the first occurrence. -/
def splitFirst (c : Char) : List Char → Option (List Char × List Char)
  | [] => none
  | x :: xs =>
    if x = c then some ([], xs)
    else
      match splitFirst c xs with
      | some (pre, post) => some (x :: pre, post)
      | none => none

/-- The netmask `~((1 << (32 - prefix_len)) - 1)` of `ip_in_cidr`, with the
C special case for prefix 0.  A prefix outside 0–32 makes the C shift
undefined behaviour and never arises from a well-formed CIDR string; the
model maps it to an all-ones mask. -/
def cidrMask (p : Int) : Nat :=
  if p = 0 then 0
  else if 1 ≤ p ∧ p ≤ 32 then 2 ^ 32 - 2 ^ ((32 - p).toNat)
  else 2 ^ 32 - 1

/-- `ip_in_cidr`: the CIDR string (truncated to the 63 characters `strncpy`
keeps) is split at its first `/`; with no `/` the match is exact string
comparison; otherwise both the address and the network part must parse as
IPv4 and is compared under the prefix mask. -/
def ip_in_cidr (ip cidr : String) : Bool :=
  let cidrT := cidr.data.take 63
  match splitFirst '/' cidrT with
  | none => ip.data = cidrT
  | some (net, rest) =>
    let plen := atoi rest
    match inet_pton4 ip, inet_pton4 (String.mk net) with
    | some a, some n => decide (a &&& cidrMask plen = n &&& cidrMask plen)
    | _, _ => false

/-- `auth_config_t`, restricted to the fields `auth_check_network` reads
(plus identity fields): the `require_auth` flag and the allowed-network
list (`allowed_networks` with `num_networks` as its length). -/
structure AuthConfig where
  token : String
  researcher_id : String
  project_id : String
  require_auth : Bool
  allowed_networks : List String
  max_runtime_hours : Nat
  deriving DecidableEq, Repr

/-- `auth_check_network`: false on a NULL auth config or NULL target;
unconditionally true when `require_auth` is false or no networks are
configured; otherwise true exactly when some allowed entry matches under
`ip_in_cidr`. -/
def auth_check_network (auth : Option AuthConfig) (target_ip : Option String) : Bool :=
  match auth, target_ip with
  | some a, some ip =>
    if ¬a.require_auth ∨ a.allowed_networks.length = 0 then true
    else a.allowed_networks.any (fun c => ip_in_cidr ip c)
  | _, _ => false

/-- C7: with `require_auth` set (as `auth_init` always leaves it),
`auth_check_network` returns true iff the address matches at least one
allowed entry under `ip_in_cidr` (prefix-masked CIDR comparison, exact
string match for an entry without a slash); zero configured networks accept
every address; "10.1.2.3" is accepted under ["10.0.0.0/8"] and rejected
under ["192.168.0.0/16"]. -/
theorem auth_check_network_cidr_semantics :
    (∀ (a : AuthConfig) (ip : String), a.require_auth = true →
      a.allowed_networks ≠ [] →
      (auth_check_network (some a) (some ip) = true ↔
        a.allowed_networks.any (fun c => ip_in_cidr ip c) = true)) ∧
    (∀ (a : AuthConfig) (ip : String), a.allowed_networks = [] →
      auth_check_network (some a) (some ip) = true) ∧
    auth_check_network
      (some ⟨"t", "r", "p", true, ["10.0.0.0/8"], 0⟩) (some "10.1.2.3") = true ∧
    auth_check_network
      (some ⟨"t", "r", "p", true, ["192.168.0.0/16"], 0⟩) (some "10.1.2.3") = false := by
  refine ⟨?_, ?_, by decide, by decide⟩
  · intro a ip hra hne
    simp [auth_check_network, hra, hne]
  · intro a ip hempty
    simp [auth_check_network, hempty]

/-- Witness for `auth_check_network_cidr_semantics`: the iff at a concrete
authorization with one CIDR entry. -/
theorem auth_check_network_cidr_semantics_witness :
    (AuthConfig.require_auth ⟨"t", "r", "p", true, ["10.0.0.0/8"], 0⟩ = true) ∧
    (AuthConfig.allowed_networks ⟨"t", "r", "p", true, ["10.0.0.0/8"], 0⟩ ≠ []) ∧
    (auth_check_network (some ⟨"t", "r", "p", true, ["10.0.0.0/8"], 0⟩)
        (some "10.1.2.3") = true ↔
      (AuthConfig.allowed_networks ⟨"t", "r", "p", true, ["10.0.0.0/8"], 0⟩).any
        (fun c => ip_in_cidr "10.1.2.3" c) = true) :=
  ⟨rfl, by decide,
    auth_check_network_cidr_semantics.1 ⟨"t", "r", "p", true, ["10.0.0.0/8"], 0⟩
      "10.1.2.3" rfl (by decide)⟩

/-- C10: with `require_auth` false, `auth_check_network` accepts every
target — even one excluded by a non-empty allowed-network list (the
development bypass disables network-scope enforcement entirely); and a NULL
auth config or NULL target IP is always refused. -/
theorem auth_check_network_bypass_and_null :
    (∀ (a : AuthConfig) (ip : String), a.require_auth = false →
      auth_check_network (some a) (some ip) = true) ∧
    (∀ ip, auth_check_network none ip = false) ∧
    (∀ auth, auth_check_network auth none = false) ∧
    (auth_check_network
        (some ⟨"t", "r", "p", false, ["192.168.0.0/16"], 0⟩) (some "10.1.2.3") = true ∧
      ip_in_cidr "10.1.2.3" "192.168.0.0/16" = false) := by
  refine ⟨?_, ?_, ?_, by decide, by decide⟩
  · intro a ip hra
    simp [auth_check_network, hra]
  · intro ip
    cases ip <;> rfl
  · intro auth
    cases auth <;> rfl

/-- Witness for `auth_check_network_bypass_and_null`: the bypass accepting
an address outside the configured list. -/
theorem auth_check_network_bypass_and_null_witness :
    auth_check_network
      (some ⟨"t", "r", "p", false, ["192.168.0.0/16"], 0⟩) (some "10.1.2.3") = true :=
  auth_check_network_bypass_and_null.1 ⟨"t", "r", "p", false, ["192.168.0.0/16"], 0⟩
    "10.1.2.3" rfl

/-! ## Config validation (src/common/config_loader.c) -/

/-- `result_t` (util.h): success flag, error message, numeric code;
`RESULT_OK` is `⟨true, none, 0⟩` and `RESULT_ERROR msg code` is
`⟨false, some msg, code⟩`. -/
structure ResultT where
  success : Bool
  error_msg : Option String
  error_code : Nat
  deriving DecidableEq, Repr

/-- `mirai_config_t`, restricted to the fields `config_validate` reads:
`network.cnc_domain` (NULL-able string), `credentials.credential_count`,
`credentials.ai_generation_enabled`, `safeguards.enabled` and
`safeguards.allowed_network_count`. -/
structure MiraiConfig where
  cnc_domain : Option String
  credential_count : Nat
  ai_generation_enabled : Bool
  safeguards_enabled : Bool
  allowed_network_count : Nat
  deriving DecidableEq, Repr

/-- `config_validate`, paired with the number of warning-level log lines it
emits: a NULL CNC domain is error 20; zero credentials with AI generation
disabled is error 21; safeguards enabled with an empty allowed-network list
logs exactly one warning and still returns `RESULT_OK`. -/
def config_validate (c : MiraiConfig) : ResultT × Nat :=
  if c.cnc_domain = none then (⟨false, some "Missing CNC domain", 20⟩, 0)
  else if c.credential_count = 0 ∧ ¬c.ai_generation_enabled then
    (⟨false, some "No credentials configured and AI generation disabled", 21⟩, 0)
  else if c.safeguards_enabled ∧ c.allowed_network_count = 0 then
    (⟨true, none, 0⟩, 1)
  else (⟨true, none, 0⟩, 0)

/-- C9: on any config with a CNC domain whose credential count is zero and
whose AI-generation flag is false, `config_validate` fails with the stable
specific error code 21; and on a config that passes the credential check
with safeguards enabled and an empty allowed-network list it returns OK
while emitting exactly one warning-level log line. -/
theorem config_validate_credential_and_safeguard_rules :
    (∀ c : MiraiConfig, c.cnc_domain ≠ none → c.credential_count = 0 →
      c.ai_generation_enabled = false →
      config_validate c
        = (⟨false, some "No credentials configured and AI generation disabled", 21⟩, 0)) ∧
    (∀ c : MiraiConfig, c.cnc_domain ≠ none →
      (c.credential_count ≠ 0 ∨ c.ai_generation_enabled = true) →
      c.safeguards_enabled = true → c.allowed_network_count = 0 →
      config_validate c = (⟨true, none, 0⟩, 1)) := by
  constructor
  · intro c hd hcred hai
    simp [config_validate, hd, hcred, hai]
  · intro c hd hcred hs hn
    rcases hcred with hc | hc <;> simp [config_validate, hd, hc, hs, hn]

/-- Witness for `config_validate_credential_and_safeguard_rules`: a config
with no credentials and AI off fails with code 21; one with a credential,
safeguards on and no allowed networks passes with one warning. -/
theorem config_validate_credential_and_safeguard_rules_witness :
    config_validate ⟨some "cnc.example", 0, false, false, 0⟩
      = (⟨false, some "No credentials configured and AI generation disabled", 21⟩, 0) ∧
    config_validate ⟨some "cnc.example", 1, false, true, 0⟩ = (⟨true, none, 0⟩, 1) :=
  ⟨config_validate_credential_and_safeguard_rules.1 ⟨some "cnc.example", 0, false, false, 0⟩
      (by decide) rfl rfl,
    config_validate_credential_and_safeguard_rules.2 ⟨some "cnc.example", 1, false, true, 0⟩
      (by decide) (Or.inl (by decide)) rfl rfl⟩

/-! ## Multi-IP loader (loader/multi_ip_loader.c) -/

/-- `source_ip_t`: address, current connection count, per-IP cap. -/
structure SourceIp where
  ip : Nat
  connections_count : Nat
  max_connections : Nat
  deriving DecidableEq, Repr

/-- Source `j` is strictly below its per-IP cap. -/
def sourceBelowCap (srcs : List SourceIp) (j : Nat) : Prop :=
  (srcs.getD j ⟨0, 0, 0⟩).connections_count < (srcs.getD j ⟨0, 0, 0⟩).max_connections

instance (srcs : List SourceIp) (j : Nat) : Decidable (sourceBelowCap srcs j) := by
  unfold sourceBelowCap
  infer_instance

/-- The scan loop of `select_source_ip`: walk the source table, skipping
entries at capacity, keeping the index of the least-loaded entry seen
(first wins on ties, via the strict `<` comparison). -/
def select_source_ip_loop (srcs : List SourceIp) (i : Nat) (best : Option Nat) :
    Option Nat :=
  if h : i < srcs.length then
    let src := srcs.getD i ⟨0, 0, 0⟩
    let best2 :=
      if src.max_connections ≤ src.connections_count then best
      else
        match best with
        | none => some i
        | some j =>
          if src.connections_count < (srcs.getD j ⟨0, 0, 0⟩).connections_count then
            some i
          else best
    select_source_ip_loop srcs (i + 1) best2
  else best
termination_by srcs.length - i

/-- `select_source_ip`: NULL on an empty table, otherwise the scan result. -/
def select_source_ip (srcs : List SourceIp) : Option Nat :=
  if srcs.length = 0 then none else select_source_ip_loop srcs 0 none

/-- `multi_ip_loader_t`, restricted to what `multi_ip_loader_connect`
touches: the source table, the number of free pool slots (`fd == -1`), the
active-connection count and the `total_attempts` statistic. -/
structure MultiIpLoader where
  source_ips : List SourceIp
  free_slots : Nat
  active_connections : Nat
  total_attempts : Nat
  deriving DecidableEq, Repr

/-- Result of `multi_ip_loader_connect` together with the loader state:
the C failure paths (no source, pool exhausted, socket/bind/connect/epoll
failure) log, close any fd and leave every counter untouched. -/
inductive ConnectResult where
  | ok (sourceIdx : Nat) (state : MultiIpLoader)
  | failure (msg : String) (state : MultiIpLoader)
  deriving DecidableEq, Repr

/-- `multi_ip_loader_connect`: select a source IP (least-loaded under cap),
find a free pool slot, perform the socket/bind/connect/epoll sequence
(summarized by the `sysOk` oracle), then increment the chosen source's
count, the active count and `total_attempts`. -/
def multi_ip_loader_connect (ld : MultiIpLoader) (sysOk : Bool) : ConnectResult :=
  match select_source_ip ld.source_ips with
  | none => .failure "No available source IPs" ld
  | some i =>
    if ld.free_slots = 0 then .failure "Connection pool exhausted" ld
    else if ¬sysOk then .failure "socket/bind/connect/epoll failed" ld
    else
      let src := ld.source_ips.getD i ⟨0, 0, 0⟩
      .ok i
        { ld with
            source_ips :=
              ld.source_ips.set i { src with connections_count := src.connections_count + 1 }
            free_slots := ld.free_slots - 1
            active_connections := ld.active_connections + 1
            total_attempts := ld.total_attempts + 1 }

/-- Loop invariant of the `select_source_ip` scan: over the first `bound`
entries, `none` means none is below cap, and `some k` is a below-cap entry
of minimal connection count. -/
def selInv (srcs : List SourceIp) (bound : Nat) : Option Nat → Prop
  | none => ∀ j, j < bound → ¬sourceBelowCap srcs j
  | some k =>
    k < srcs.length ∧ sourceBelowCap srcs k ∧
      ∀ j, j < bound → sourceBelowCap srcs j →
        (srcs.getD k ⟨0, 0, 0⟩).connections_count ≤
          (srcs.getD j ⟨0, 0, 0⟩).connections_count

/-- The scan loop carries `selInv` to the whole table. -/
theorem select_source_ip_loop_sound (srcs : List SourceIp) :
    ∀ (d i : Nat) (best : Option Nat), srcs.length ≤ i + d →
      selInv srcs i best →
      selInv srcs srcs.length (select_source_ip_loop srcs i best) := by
  intro d
  induction d with
  | zero =>
    intro i best hle hinv
    rw [select_source_ip_loop, dif_neg (by omega)]
    cases best with
    | none => intro j hj; exact hinv j (by omega)
    | some k => exact ⟨hinv.1, hinv.2.1, fun j hj => hinv.2.2 j (by omega)⟩
  | succ n ihd =>
    intro i best hle hinv
    rw [select_source_ip_loop]
    split
    · next h =>
      apply ihd (i + 1) _ (by omega)
      by_cases hcap : (srcs.getD i ⟨0, 0, 0⟩).max_connections ≤
          (srcs.getD i ⟨0, 0, 0⟩).connections_count
      · rw [if_pos hcap]
        have hnb : ¬sourceBelowCap srcs i := by
          unfold sourceBelowCap; omega
        cases best with
        | none =>
          intro j hj
          rcases Nat.lt_succ_iff_lt_or_eq.mp hj with hj' | rfl
          · exact hinv j hj'
          · exact hnb
        | some k =>
          refine ⟨hinv.1, hinv.2.1, fun j hj hb => ?_⟩
          rcases Nat.lt_succ_iff_lt_or_eq.mp hj with hj' | rfl
          · exact hinv.2.2 j hj' hb
          · exact absurd hb hnb
      · rw [if_neg hcap]
        have hbi : sourceBelowCap srcs i := by
          unfold sourceBelowCap; omega
        cases best with
        | none =>
          refine ⟨h, hbi, fun j hj hb => ?_⟩
          rcases Nat.lt_succ_iff_lt_or_eq.mp hj with hj' | rfl
          · exact absurd hb (hinv j hj')
          · exact le_refl _
        | some k =>
          dsimp only
          by_cases hlt : (srcs.getD i ⟨0, 0, 0⟩).connections_count <
              (srcs.getD k ⟨0, 0, 0⟩).connections_count
          · rw [if_pos hlt]
            refine ⟨h, hbi, fun j hj hb => ?_⟩
            rcases Nat.lt_succ_iff_lt_or_eq.mp hj with hj' | rfl
            · exact le_trans (le_of_lt hlt) (hinv.2.2 j hj' hb)
            · exact le_refl _
          · rw [if_neg hlt]
            refine ⟨hinv.1, hinv.2.1, fun j hj hb => ?_⟩
            rcases Nat.lt_succ_iff_lt_or_eq.mp hj with hj' | rfl
            · exact hinv.2.2 j hj' hb
            · omega
    · next h =>
      cases best with
      | none => intro j hj; exact hinv j (by omega)
      | some k => exact ⟨hinv.1, hinv.2.1, fun j hj => hinv.2.2 j (by omega)⟩

/-- C8: `select_source_ip` never picks a source at its cap and always picks
one of minimal connection count among those below cap; once every source is
saturated, `multi_ip_loader_connect` fails with "No available source IPs"
and changes nothing; and with two sources capped at 2, four connects pick
sources 0, 1, 0, 1 (the strictly least-loaded one each time, first-wins on
ties) and the fifth fails with "No available source IPs". -/
theorem multi_ip_loader_least_loaded_selection :
    (∀ (srcs : List SourceIp) (i : Nat), select_source_ip srcs = some i →
      i < srcs.length ∧ sourceBelowCap srcs i ∧
        ∀ j, j < srcs.length → sourceBelowCap srcs j →
          (srcs.getD i ⟨0, 0, 0⟩).connections_count ≤
            (srcs.getD j ⟨0, 0, 0⟩).connections_count) ∧
    (∀ (ld : MultiIpLoader) (sysOk : Bool),
      (∀ j, j < ld.source_ips.length → ¬sourceBelowCap ld.source_ips j) →
      multi_ip_loader_connect ld sysOk = .failure "No available source IPs" ld) ∧
    (multi_ip_loader_connect ⟨[⟨1, 0, 2⟩, ⟨2, 0, 2⟩], 16, 0, 0⟩ true
        = .ok 0 ⟨[⟨1, 1, 2⟩, ⟨2, 0, 2⟩], 15, 1, 1⟩ ∧
      multi_ip_loader_connect ⟨[⟨1, 1, 2⟩, ⟨2, 0, 2⟩], 15, 1, 1⟩ true
        = .ok 1 ⟨[⟨1, 1, 2⟩, ⟨2, 1, 2⟩], 14, 2, 2⟩ ∧
      multi_ip_loader_connect ⟨[⟨1, 1, 2⟩, ⟨2, 1, 2⟩], 14, 2, 2⟩ true
        = .ok 0 ⟨[⟨1, 2, 2⟩, ⟨2, 1, 2⟩], 13, 3, 3⟩ ∧
      multi_ip_loader_connect ⟨[⟨1, 2, 2⟩, ⟨2, 1, 2⟩], 13, 3, 3⟩ true
        = .ok 1 ⟨[⟨1, 2, 2⟩, ⟨2, 2, 2⟩], 12, 4, 4⟩ ∧
      multi_ip_loader_connect ⟨[⟨1, 2, 2⟩, ⟨2, 2, 2⟩], 12, 4, 4⟩ true
        = .failure "No available source IPs" ⟨[⟨1, 2, 2⟩, ⟨2, 2, 2⟩], 12, 4, 4⟩) := by
  have hsel : ∀ (srcs : List SourceIp) (i : Nat), select_source_ip srcs = some i →
      selInv srcs srcs.length (some i) := by
    intro srcs i h
    unfold select_source_ip at h
    split at h
    · exact absurd h (by simp)
    · rw [← h]
      exact select_source_ip_loop_sound srcs srcs.length 0 none (by omega)
        (fun j hj => absurd hj (by omega))
  refine ⟨fun srcs i h => hsel srcs i h, ?_, ?_, ?_, ?_, ?_, ?_⟩
  · intro ld sysOk hsat
    unfold multi_ip_loader_connect
    cases hs : select_source_ip ld.source_ips with
    | none => rfl
    | some i =>
      exact absurd (hsel _ i hs).2.1 (hsat i (hsel _ i hs).1)
  all_goals
    simp [multi_ip_loader_connect, select_source_ip, select_source_ip_loop,
      List.getD, List.set]

/-- Witness for `multi_ip_loader_least_loaded_selection`: the first connect
of the {2, 2} scenario picks source 0, which is below cap and least
loaded. -/
theorem multi_ip_loader_least_loaded_selection_witness :
    (select_source_ip [⟨1, 0, 2⟩, ⟨2, 0, 2⟩] = some 0) ∧
    (0 < ([⟨1, 0, 2⟩, ⟨2, 0, 2⟩] : List SourceIp).length ∧
      sourceBelowCap [⟨1, 0, 2⟩, ⟨2, 0, 2⟩] 0 ∧
      ∀ j, j < ([⟨1, 0, 2⟩, ⟨2, 0, 2⟩] : List SourceIp).length →
        sourceBelowCap [⟨1, 0, 2⟩, ⟨2, 0, 2⟩] j →
        (([⟨1, 0, 2⟩, ⟨2, 0, 2⟩] : List SourceIp).getD 0 ⟨0, 0, 0⟩).connections_count ≤
          (([⟨1, 0, 2⟩, ⟨2, 0, 2⟩] : List SourceIp).getD j ⟨0, 0, 0⟩).connections_count) :=
  ⟨by simp [select_source_ip, select_source_ip_loop, List.getD],
    multi_ip_loader_least_loaded_selection.1 [⟨1, 0, 2⟩, ⟨2, 0, 2⟩] 0
      (by simp [select_source_ip, select_source_ip_loop, List.getD])⟩

/-! ## AEAD crypto wrapper (src/common/crypto.c)

`crypto_encrypt`/`crypto_decrypt` wrap libsodium's
`crypto_aead_chacha20poly1305_ietf` primitive, which is an external
capability library, not code of this repository.  The primitive is modelled
from the spec (§4.5): the sealed form is `ciphertext ‖ tag` where the
ciphertext is the plaintext combined byte-wise with a key/nonce keystream
and the 16-byte tag is a keyed function of the ciphertext, re-computed and
compared on open, which fails with an authentication error exactly when the
tag check fails.  Nonce and tag lengths are the IETF construction's 12 and
16 bytes. -/

/-- `crypto_aead_chacha20poly1305_IETF_NPUBBYTES`. -/
def NPUBBYTES : Nat := 12

/-- `crypto_aead_chacha20poly1305_IETF_ABYTES`. -/
def ABYTES : Nat := 16

/-- Modelled from the spec: the stream-cipher keystream byte at position
`i`, a function of key and nonce (libsodium's ChaCha20 block function is
external; any keyed byte stream realizes the spec's contract). -/
def keystreamByte (key nonce : List Nat) (i : Nat) : Nat :=
  (key.getD (i % 32) 0 + nonce.getD (i % 12) 0 + i) % 256

/-- XOR a byte list against the keystream starting at position `i`; applied
to the plaintext this is the ciphertext and vice versa. -/
def xorKeystream (key nonce : List Nat) : Nat → List Nat → List Nat
  | _, [] => []
  | i, b :: t => (b ^^^ keystreamByte key nonce i) :: xorKeystream key nonce (i + 1) t

/-- Position-weighted byte sum used by the modelled authenticator: byte at
absolute position `i` carries weight `256 ^ (i % 16)`. -/
def polyval : List Nat → Nat → Nat
  | [], _ => 0
  | b :: t, i => b * 256 ^ (i % 16) + polyval t (i + 1)

/-- Modelled from the spec: the 128-bit authenticator value over the
ciphertext, keyed by key and nonce (libsodium's Poly1305 is external). -/
def tagNat (key nonce ct : List Nat) : Nat :=
  (polyval (key ++ nonce) 0 + polyval ct 0) % 2 ^ 128

/-- Little-endian byte serialization (`k` bytes). -/
def natLE : Nat → Nat → List Nat
  | 0, _ => []
  | k + 1, n => (n % 256) :: natLE k (n / 256)

/-- Little-endian byte deserialization. -/
def fromLE : List Nat → Nat
  | [] => 0
  | b :: t => b + 256 * fromLE t

/-- Modelled from the spec: `crypto_aead_chacha20poly1305_ietf_encrypt`
with no associated data — ciphertext ‖ 16-byte tag. -/
def aead_seal (key nonce pt : List Nat) : List Nat :=
  let ct := xorKeystream key nonce 0 pt
  ct ++ natLE 16 (tagNat key nonce ct)

/-- Modelled from the spec: `crypto_aead_chacha20poly1305_ietf_decrypt` —
split off the trailing 16-byte tag, re-compute the authenticator over the
ciphertext and compare; on success undo the keystream. -/
def aead_open (key nonce c : List Nat) : Option (List Nat) :=
  let ct := c.take (c.length - 16)
  let tag := c.drop (c.length - 16)
  if tag = natLE 16 (tagNat key nonce ct) then some (xorKeystream key nonce 0 ct)
  else none

/-- `crypto_encrypt`: fresh random nonce (passed in as the randomness),
seal, return `nonce ‖ ciphertext ‖ tag`.  (The NULL-parameter error 101 and
the unreachable primitive-failure error 102 are outside the claims.) -/
def crypto_encrypt (plaintext key nonce : List Nat) : ResultT × List Nat :=
  (⟨true, none, 0⟩, nonce ++ aead_seal key nonce plaintext)

/-- `crypto_decrypt`: error 104 ("Ciphertext too short") when the input is
shorter than nonce+tag; otherwise split off the nonce, open, and return
error 105 ("Decryption failed (authentication failed)") when the tag check
fails. -/
def crypto_decrypt (ciphertext key : List Nat) : ResultT × List Nat :=
  if ciphertext.length < NPUBBYTES + ABYTES then
    (⟨false, some "Ciphertext too short", 104⟩, [])
  else
    let nonce := ciphertext.take NPUBBYTES
    let encrypted := ciphertext.drop NPUBBYTES
    match aead_open key nonce encrypted with
    | some pt => (⟨true, none, 0⟩, pt)
    | none => (⟨false, some "Decryption failed (authentication failed)", 105⟩, [])

theorem xorKeystream_length (key nonce : List Nat) :
    ∀ i l, (xorKeystream key nonce i l).length = l.length := by
  intro i l
  induction l generalizing i with
  | nil => rfl
  | cons b t ih => simp [xorKeystream, ih]

theorem xorKeystream_involutive (key nonce : List Nat) :
    ∀ i l, xorKeystream key nonce i (xorKeystream key nonce i l) = l := by
  intro i l
  induction l generalizing i with
  | nil => rfl
  | cons b t ih =>
    simp only [xorKeystream, List.cons.injEq]
    exact ⟨by rw [Nat.xor_assoc, Nat.xor_self, Nat.xor_zero], ih (i + 1)⟩

theorem xorKeystream_bytes (key nonce : List Nat) :
    ∀ i l, (∀ x ∈ l, x < 256) → ∀ y ∈ xorKeystream key nonce i l, y < 256 := by
  intro i l
  induction l generalizing i with
  | nil => intro _ y hy; simp [xorKeystream] at hy
  | cons b t ih =>
    intro hl y hy
    simp only [xorKeystream, List.mem_cons] at hy
    rcases hy with rfl | hy
    · have hb : b < 2 ^ 8 := hl b (by simp)
      have hk : keystreamByte key nonce i < 2 ^ 8 := Nat.mod_lt _ (by norm_num)
      exact Nat.xor_lt_two_pow hb hk
    · exact ih (i + 1) (fun x hx => hl x (by simp [hx])) y hy

theorem natLE_length : ∀ k n, (natLE k n).length = k := by
  intro k
  induction k with
  | zero => intro n; rfl
  | succ m ih => intro n; simp [natLE, ih]

theorem fromLE_natLE : ∀ k n, fromLE (natLE k n) = n % 256 ^ k := by
  intro k
  induction k with
  | zero => intro n; simp [natLE, fromLE, Nat.mod_one]
  | succ m ih =>
    intro n
    have h : n % 256 ^ (m + 1) = n % 256 + 256 * (n / 256 % 256 ^ m) := by
      rw [pow_succ, mul_comm (256 ^ m) 256]
      exact Nat.mod_mul
    simp [natLE, fromLE, ih, h]

theorem natLE_inj {a b : Nat} (ha : a < 2 ^ 128) (hb : b < 2 ^ 128)
    (h : natLE 16 a = natLE 16 b) : a = b := by
  have := congrArg fromLE h
  rw [fromLE_natLE, fromLE_natLE] at this
  have h256 : (256 : Nat) ^ 16 = 2 ^ 128 := by norm_num
  rw [h256] at this
  rwa [Nat.mod_eq_of_lt ha, Nat.mod_eq_of_lt hb] at this

theorem tagNat_lt (key nonce ct : List Nat) : tagNat key nonce ct < 2 ^ 128 :=
  Nat.mod_lt _ (by norm_num)

/-- Setting an index past a prefix acts on the suffix. -/
theorem set_append_right_of_le {α : Type} (a : List α) :
    ∀ (b : List α) (k : Nat) (x : α), a.length ≤ k →
      (a ++ b).set k x = a ++ b.set (k - a.length) x := by
  induction a with
  | nil => intro b k x _; simp
  | cons hd tl ih =>
    intro b k x hk
    cases k with
    | zero => simp at hk
    | succ k =>
      have hk2 : tl.length ≤ k := by
        simp only [List.length_cons] at hk
        omega
      simp only [List.cons_append, List.set_cons_succ, List.length_cons]
      rw [ih b k x hk2, show k + 1 - (tl.length + 1) = k - tl.length by omega]

/-- Setting an index inside a prefix acts on the prefix. -/
theorem set_append_left_of_lt {α : Type} (a : List α) :
    ∀ (b : List α) (k : Nat) (x : α), k < a.length →
      (a ++ b).set k x = a.set k x ++ b := by
  induction a with
  | nil => intro b k x hk; simp at hk
  | cons hd tl ih =>
    intro b k x hk
    match k with
    | 0 => simp
    | k + 1 =>
      simp only [List.cons_append, List.set_cons_succ]
      rw [ih b k x (by simpa using hk)]

theorem getD_append_right_of_le {α : Type} (a : List α) :
    ∀ (b : List α) (k : Nat) (d : α), a.length ≤ k →
      (a ++ b).getD k d = b.getD (k - a.length) d := by
  induction a with
  | nil => intro b k d _; simp
  | cons hd tl ih =>
    intro b k d hk
    cases k with
    | zero => simp at hk
    | succ k =>
      have hk2 : tl.length ≤ k := by
        simp only [List.length_cons] at hk
        omega
      simp only [List.cons_append, List.length_cons]
      rw [show (hd :: (tl ++ b)).getD (k + 1) d = (tl ++ b).getD k d from rfl]
      rw [ih b k d hk2, show k + 1 - (tl.length + 1) = k - tl.length by omega]

theorem getD_append_left_of_lt {α : Type} (a : List α) :
    ∀ (b : List α) (k : Nat) (d : α), k < a.length →
      (a ++ b).getD k d = a.getD k d := by
  induction a with
  | nil => intro b k d hk; simp at hk
  | cons hd tl ih =>
    intro b k d hk
    match k with
    | 0 => rfl
    | k + 1 =>
      show (tl ++ b).getD k d = tl.getD k d
      exact ih b k d (by simpa using hk)

theorem xor_pow_ne (x b : Nat) : x ^^^ 2 ^ b ≠ x := by
  intro h
  have h2 : (2 : Nat) ^ b = 0 := by
    calc (2 : Nat) ^ b = x ^^^ (x ^^^ 2 ^ b) := by
          rw [← Nat.xor_assoc, Nat.xor_self, Nat.zero_xor]
      _ = x ^^^ x := by rw [h]
      _ = 0 := Nat.xor_self x
  exact absurd h2 (Nat.pos_iff_ne_zero.mp (Nat.pos_pow_of_pos b (by norm_num)))

theorem set_flip_ne {l : List Nat} {k : Nat} (hk : k < l.length) (b : Nat) :
    l.set k (l.getD k 0 ^^^ 2 ^ b) ≠ l := by
  intro heq
  have hlen : k < (l.set k (l.getD k 0 ^^^ 2 ^ b)).length := by
    simpa using hk
  have h2 := congrArg (fun t => t.getD k 0) heq
  simp only [List.getD_eq_getElem?_getD] at h2
  rw [List.getElem?_eq_getElem hk] at h2
  simp only [Option.getD_some] at h2
  have hlen2 : k < (l.set k (l[k] ^^^ 2 ^ b)).length := by
    simpa using hk
  rw [List.getElem?_eq_getElem hlen2] at h2
  simp only [List.getElem_set_self, Option.getD_some] at h2
  exact absurd h2 (xor_pow_ne _ b)

/-- Effect of overwriting one byte on the weighted sum. -/
theorem polyval_set (x : Nat) :
    ∀ (l : List Nat) (k i : Nat), k < l.length →
      (polyval (l.set k x) i : ℤ)
        = (polyval l i : ℤ) + ((x : ℤ) - l.getD k 0) * 256 ^ ((i + k) % 16) := by
  intro l
  induction l with
  | nil => intro k i hk; simp at hk
  | cons hd t ih =>
    intro k i hk
    cases k with
    | zero =>
      simp only [List.set_cons_zero, polyval, List.getD_cons_zero, Nat.add_zero]
      push_cast
      ring
    | succ k =>
      have hk2 : k < t.length := by simpa using hk
      simp only [List.set_cons_succ, polyval, List.getD_cons_succ]
      push_cast
      rw [ih k (i + 1) hk2]
      rw [show i + 1 + k = i + (k + 1) by omega]
      ring

/-- Two naturals that differ by less than `M` in absolute value have
different residues mod `M`. -/
theorem mod_ne_of_close {M a b : Nat} (hne : a ≠ b)
    (h1 : (a : ℤ) - b < M) (h2 : (b : ℤ) - a < M) : a % M ≠ b % M := by
  intro heq
  have hmod : (a : ℤ) % M = (b : ℤ) % M := by exact_mod_cast heq
  have hdvd : (M : ℤ) ∣ (b : ℤ) - a := Int.ModEq.dvd hmod
  have hsub : ((b : ℤ) - a) ≠ 0 := by
    intro h0
    have hba : (b : ℤ) = a := sub_eq_zero.mp h0
    have hba2 : b = a := by exact_mod_cast hba
    exact hne hba2.symm
  have hle : (M : ℤ) ≤ |(b : ℤ) - a| :=
    Int.le_of_dvd (abs_pos.mpr hsub) ((dvd_abs _ _).mpr hdvd)
  have habs : |(b : ℤ) - a| < M := abs_sub_lt_iff.mpr ⟨h2, h1⟩
  linarith

/-- Flipping one bit of one ciphertext byte changes the authenticator: the
weighted sum moves by a nonzero amount smaller than the 2^128 modulus. -/
theorem tagNat_set_flip_ne (key nonce ct : List Nat) (k b : Nat)
    (hk : k < ct.length) (hbytes : ∀ x ∈ ct, x < 256) (hb : b < 8) :
    tagNat key nonce (ct.set k (ct.getD k 0 ^^^ 2 ^ b)) ≠ tagNat key nonce ct := by
  have hold : ct.getD k 0 < 256 := by
    have hmem : ct.getD k 0 ∈ ct := by
      rw [List.getD_eq_getElem?_getD, List.getElem?_eq_getElem hk]
      exact List.getElem_mem hk
    exact hbytes _ hmem
  have hnew : ct.getD k 0 ^^^ 2 ^ b < 256 := by
    have h2b : (2 : Nat) ^ b < 2 ^ 8 := Nat.pow_lt_pow_right (by norm_num) hb
    exact Nat.xor_lt_two_pow hold h2b
  have hxne : ct.getD k 0 ^^^ 2 ^ b ≠ ct.getD k 0 := xor_pow_ne _ b
  have hps := polyval_set (ct.getD k 0 ^^^ 2 ^ b) ct k 0 hk
  set S := polyval (key ++ nonce) 0 with hS
  set d : ℤ := ((ct.getD k 0 ^^^ 2 ^ b : Nat) : ℤ) - ct.getD k 0 with hd
  set w : ℤ := 256 ^ ((0 + k) % 16) with hw
  have hdne : d ≠ 0 := by
    rw [hd, sub_ne_zero]
    exact_mod_cast hxne
  have hdabs : |d| < 256 := by
    rw [hd, abs_sub_lt_iff]
    constructor <;> omega
  have hwpos : (0 : ℤ) < w := by positivity
  have hwle : w ≤ 256 ^ 15 := by
    rw [hw]
    exact pow_le_pow_right₀ (by norm_num) (by omega)
  have hprod : |d * w| < 2 ^ 128 := by
    have hd255 : |d| ≤ 255 := by
      have := Int.lt_iff_add_one_le.mp hdabs
      linarith
    have hmm : |d| * w ≤ 255 * 256 ^ 15 :=
      mul_le_mul hd255 hwle hwpos.le (by norm_num)
    calc |d * w| = |d| * w := by rw [abs_mul, abs_of_pos hwpos]
      _ ≤ 255 * 256 ^ 15 := hmm
      _ < 2 ^ 128 := by norm_num
  have hprodne : d * w ≠ 0 := mul_ne_zero hdne (ne_of_gt hwpos)
  unfold tagNat
  apply mod_ne_of_close
  · intro heq
    apply hprodne
    have : ((S + polyval (ct.set k (ct.getD k 0 ^^^ 2 ^ b)) 0 : Nat) : ℤ)
        = ((S + polyval ct 0 : Nat) : ℤ) := by exact_mod_cast heq
    push_cast at this
    rw [hps] at this
    linarith
  · push_cast
    rw [hps]
    have := abs_lt.mp hprod
    linarith
  · push_cast
    rw [hps]
    have := abs_lt.mp hprod
    linarith

/-- Decrypt inverts encrypt under the same key. -/
theorem crypto_decrypt_encrypt (pt key nonce : List Nat) (hn : nonce.length = 12) :
    crypto_decrypt (crypto_encrypt pt key nonce).2 key = (⟨true, none, 0⟩, pt) := by
  have hct : (xorKeystream key nonce 0 pt).length = pt.length :=
    xorKeystream_length key nonce 0 pt
  have htg : (natLE 16 (tagNat key nonce (xorKeystream key nonce 0 pt))).length = 16 :=
    natLE_length 16 _
  show crypto_decrypt
      (nonce ++ (xorKeystream key nonce 0 pt ++
        natLE 16 (tagNat key nonce (xorKeystream key nonce 0 pt)))) key = _
  unfold crypto_decrypt NPUBBYTES ABYTES
  rw [if_neg (by simp only [List.length_append, hn, hct, htg]; omega)]
  rw [List.take_left' hn, List.drop_left' hn]
  unfold aead_open
  have hsplit : (xorKeystream key nonce 0 pt ++
      natLE 16 (tagNat key nonce (xorKeystream key nonce 0 pt))).length - 16
      = (xorKeystream key nonce 0 pt).length := by
    simp only [List.length_append, htg]
    omega
  simp only [hsplit, List.take_left, List.drop_left, if_pos rfl,
    xorKeystream_involutive]
  simp

/-- An input shorter than nonce + tag fails with error 104. -/
theorem crypto_decrypt_too_short (c key : List Nat) (h : c.length < 28) :
    crypto_decrypt c key = (⟨false, some "Ciphertext too short", 104⟩, []) := by
  unfold crypto_decrypt NPUBBYTES ABYTES
  rw [if_pos (by omega)]

/-- Flipping any single bit of the ciphertext-or-tag region of an encrypt
output makes decrypt fail with the authentication error. -/
theorem crypto_decrypt_bitflip (pt key nonce : List Nat) (j b : Nat)
    (hn : nonce.length = 12) (hpt : ∀ x ∈ pt, x < 256)
    (hj : 12 ≤ j) (hjlt : j < 12 + pt.length + 16) (hb : b < 8) :
    crypto_decrypt
      ((crypto_encrypt pt key nonce).2.set j
        ((crypto_encrypt pt key nonce).2.getD j 0 ^^^ 2 ^ b)) key
      = (⟨false, some "Decryption failed (authentication failed)", 105⟩, []) := by
  have hct : (xorKeystream key nonce 0 pt).length = pt.length :=
    xorKeystream_length key nonce 0 pt
  have htg : (natLE 16 (tagNat key nonce (xorKeystream key nonce 0 pt))).length = 16 :=
    natLE_length 16 _
  set ct := xorKeystream key nonce 0 pt with hctdef
  set tg := natLE 16 (tagNat key nonce ct) with htgdef
  have hc2 : (crypto_encrypt pt key nonce).2 = nonce ++ (ct ++ tg) := rfl
  have hjn : nonce.length ≤ j := by omega
  have hgetD : (crypto_encrypt pt key nonce).2.getD j 0
      = (ct ++ tg).getD (j - 12) 0 := by
    rw [hc2, getD_append_right_of_le nonce (ct ++ tg) j 0 hjn, hn]
  have hset : (crypto_encrypt pt key nonce).2.set j
        ((crypto_encrypt pt key nonce).2.getD j 0 ^^^ 2 ^ b)
      = nonce ++ (ct ++ tg).set (j - 12) ((ct ++ tg).getD (j - 12) 0 ^^^ 2 ^ b) := by
    rw [hgetD, hc2, set_append_right_of_le nonce (ct ++ tg) j _ hjn, hn]
  rw [hset]
  set k := j - 12 with hkdef
  have hk : k < ct.length + 16 := by omega
  have hsetlen : ((ct ++ tg).set k ((ct ++ tg).getD k 0 ^^^ 2 ^ b)).length
      = ct.length + 16 := by
    simp [htg]
  unfold crypto_decrypt NPUBBYTES ABYTES
  rw [if_neg (by simp only [List.length_append, hn, hsetlen]; omega)]
  rw [List.take_left' hn, List.drop_left' hn]
  unfold aead_open
  dsimp only
  by_cases hcase : k < ct.length
  · have hgl : (ct ++ tg).getD k 0 = ct.getD k 0 :=
      getD_append_left_of_lt ct tg k 0 hcase
    have hsl : (ct ++ tg).set k ((ct ++ tg).getD k 0 ^^^ 2 ^ b)
        = ct.set k (ct.getD k 0 ^^^ 2 ^ b) ++ tg := by
      rw [hgl, set_append_left_of_lt ct tg k _ hcase]
    rw [hsl]
    have hlen2 : (ct.set k (ct.getD k 0 ^^^ 2 ^ b) ++ tg).length - 16
        = (ct.set k (ct.getD k 0 ^^^ 2 ^ b)).length := by
      simp [htg]
    rw [hlen2, List.take_left, List.drop_left]
    have hne : ¬tg = natLE 16 (tagNat key nonce (ct.set k (ct.getD k 0 ^^^ 2 ^ b))) := by
      intro hcond
      have hce : natLE 16 (tagNat key nonce ct)
          = natLE 16 (tagNat key nonce (ct.set k (ct.getD k 0 ^^^ 2 ^ b))) := by
        rw [← htgdef]; exact hcond
      have hteq := natLE_inj (tagNat_lt key nonce ct)
        (tagNat_lt key nonce (ct.set k (ct.getD k 0 ^^^ 2 ^ b))) hce
      exact tagNat_set_flip_ne key nonce ct k b hcase
        (xorKeystream_bytes key nonce 0 pt hpt) hb hteq.symm
    rw [if_neg hne]
  · have hctk : ct.length ≤ k := by omega
    have hgl : (ct ++ tg).getD k 0 = tg.getD (k - ct.length) 0 :=
      getD_append_right_of_le ct tg k 0 hctk
    have hsl : (ct ++ tg).set k ((ct ++ tg).getD k 0 ^^^ 2 ^ b)
        = ct ++ tg.set (k - ct.length) (tg.getD (k - ct.length) 0 ^^^ 2 ^ b) := by
      rw [hgl, set_append_right_of_le ct tg k _ hctk]
    rw [hsl]
    have hlen2 : (ct ++ tg.set (k - ct.length) (tg.getD (k - ct.length) 0 ^^^ 2 ^ b)).length - 16
        = ct.length := by
      simp [htg]
    rw [hlen2, List.take_left, List.drop_left]
    have hne : ¬tg.set (k - ct.length) (tg.getD (k - ct.length) 0 ^^^ 2 ^ b)
        = natLE 16 (tagNat key nonce ct) := by
      intro hcond
      rw [← htgdef] at hcond
      have hk16 : k - ct.length < tg.length := by
        rw [htg]; omega
      exact set_flip_ne hk16 b hcond
    rw [if_neg hne]

/-- C5: decrypt inverts encrypt (returning success with exactly the
original plaintext, for any plaintext and key and any fresh 12-byte nonce);
an input shorter than nonce + tag fails with the "Ciphertext too short"
error 104; and flipping any single bit of the ciphertext or tag region
makes decrypt fail with the authentication error 105 rather than return a
wrong plaintext. -/
theorem crypto_encrypt_decrypt_contract :
    (∀ pt key nonce : List Nat, nonce.length = 12 →
      crypto_decrypt (crypto_encrypt pt key nonce).2 key = (⟨true, none, 0⟩, pt)) ∧
    (∀ c key : List Nat, c.length < NPUBBYTES + ABYTES →
      crypto_decrypt c key = (⟨false, some "Ciphertext too short", 104⟩, [])) ∧
    (∀ (pt key nonce : List Nat) (j b : Nat), nonce.length = 12 →
      (∀ x ∈ pt, x < 256) → 12 ≤ j → j < 12 + pt.length + 16 → b < 8 →
      crypto_decrypt
        ((crypto_encrypt pt key nonce).2.set j
          ((crypto_encrypt pt key nonce).2.getD j 0 ^^^ 2 ^ b)) key
        = (⟨false, some "Decryption failed (authentication failed)", 105⟩, [])) :=
  ⟨crypto_decrypt_encrypt,
    fun c key h => crypto_decrypt_too_short c key h,
    fun pt key nonce j b hn hpt hj hjlt hb =>
      crypto_decrypt_bitflip pt key nonce j b hn hpt hj hjlt hb⟩

/-- Witness for `crypto_encrypt_decrypt_contract`: plaintext [1, 2] with an
empty-list key and an all-zero 12-byte nonce round-trips; the 27-byte input
fails short; flipping bit 0 of the first ciphertext byte fails
authentication. -/
theorem crypto_encrypt_decrypt_contract_witness :
    (crypto_decrypt (crypto_encrypt [1, 2] [] (List.replicate 12 0)).2 []
      = (⟨true, none, 0⟩, [1, 2])) ∧
    (crypto_decrypt (List.replicate 27 0) []
      = (⟨false, some "Ciphertext too short", 104⟩, [])) ∧
    (crypto_decrypt
        ((crypto_encrypt [1, 2] [] (List.replicate 12 0)).2.set 12
          ((crypto_encrypt [1, 2] [] (List.replicate 12 0)).2.getD 12 0 ^^^ 2 ^ 0)) []
      = (⟨false, some "Decryption failed (authentication failed)", 105⟩, [])) :=
  ⟨crypto_encrypt_decrypt_contract.1 [1, 2] [] (List.replicate 12 0) (by decide),
    crypto_encrypt_decrypt_contract.2.1 (List.replicate 27 0) [] (by decide),
    crypto_encrypt_decrypt_contract.2.2 [1, 2] [] (List.replicate 12 0) 12 0
      (by decide) (by decide) (by decide) (by decide) (by decide)⟩

end Mirai
